import Mathlib

/-!
Verification of the hprof heap-dump analyzer (src/docs/dump/analyze_hprof.py).

The decoder is shallowly embedded: the byte stream is a `List Nat` (one entry
per byte), the file cursor is a plain position `Nat` into that list, and the
mutable accumulators of `analyze_hprof` become an explicit `St` record threaded
through the loops.  Python file-read semantics are modelled exactly:
`f.read(n)` returns at most `n` bytes and never fails (`readBytes`; a negative
`n` reads everything up to end of stream, as Python does), while
`struct.unpack` over `f.read(n)` fails unless exactly `n` bytes were obtained
(`readExact`).  Text decoding (`bytes.decode("utf-8", errors="replace")`) is
modelled as the identity on the byte sequence: every string the analyzer ever
compares against is ASCII, where the two agree byte for byte.
-/

set_option maxRecDepth 10000

namespace Hprof

/-- ASCII byte codes of a (ASCII) string literal. -/
def asc (s : String) : List Nat := s.data.map Char.toNat

/-- Decode error: `struct.error` raised when fewer bytes are available than
`struct.unpack` requires. -/
inductive Err
  | truncated
deriving DecidableEq

deriving instance DecidableEq for Except

/-- Python `f.read(n)` on a binary stream positioned at `pos`: a negative `n`
reads everything up to end of stream; otherwise up to `n` bytes are returned
(fewer at end of stream, never an error).  Returns the bytes and the new
position. -/
def readBytes (data : List Nat) (pos : Nat) (n : Int) : List Nat × Nat :=
  if n < 0 then
    let bs := data.drop pos
    (bs, pos + bs.length)
  else
    let bs := (data.drop pos).take n.toNat
    (bs, pos + bs.length)

/-- Big-endian unsigned value of a byte list (how every `struct.unpack` with
formats B, >H, >I, >Q interprets its input). -/
def beVal (bs : List Nat) : Nat := bs.foldl (fun a b => a * 256 + b) 0

/-- `struct.unpack(">…", f.read(n))`: succeeds with the big-endian value iff
exactly `n` bytes were available, else raises (models `struct.error`). -/
def readExact (data : List Nat) (pos : Nat) (n : Nat) : Except Err (Nat × Nat) :=
  let r := readBytes data pos ((n : Int))
  if r.1.length = n then .ok (beVal r.1, r.2) else .error .truncated

/-- `read_id()` from the source: a 4-byte read when `id_size == 4`, else an
8-byte read (any other declared width falls into the 8-byte branch). -/
def readId (idSize : Nat) (data : List Nat) (pos : Nat) : Except Err (Nat × Nat) :=
  if idSize = 4 then readExact data pos 4 else readExact data pos 8

theorem readBytes_nonneg_pos (data : List Nat) (pos : Nat) (n : Int) :
    pos ≤ (readBytes data pos n).2 := by
  unfold readBytes
  split <;> simp

theorem readBytes_snd (data : List Nat) (pos : Nat) (n : Int) :
    (readBytes data pos n).2 = pos + (readBytes data pos n).1.length := by
  unfold readBytes
  split <;> simp

theorem readExact_ok_pos {data : List Nat} {pos n v p' : Nat}
    (h : readExact data pos n = .ok (v, p')) : p' = pos + n := by
  simp only [readExact] at h
  split at h
  · rename_i hlen
    simp only [Except.ok.injEq, Prod.mk.injEq] at h
    rw [readBytes_snd] at h
    omega
  · exact absurd h (by simp)

theorem readId_ok_pos {idSize : Nat} {data : List Nat} {pos v p' : Nat}
    (h : readId idSize data pos = .ok (v, p')) : pos ≤ p' := by
  unfold readId at h
  split at h <;> (have h2 := readExact_ok_pos h; omega)

/-- The mutable accumulators of one `analyze_hprof` call, made explicit.
Dictionaries become association lists where insertion prepends and lookup
takes the first hit (Python last-write-wins); `Counter` becomes an
association list consulted with a default of 0; Python `list.append` becomes
appending at the tail. -/
structure St where
  strings : List (Nat × List Nat) := []
  class_names : List (Nat × Nat) := []
  class_id_to_serial : List (Nat × Nat) := []
  class_id_to_name : List (Nat × List Nat) := []
  class_super : List (Nat × Nat) := []
  instance_counts : List (List Nat × Nat) := []
  gc_roots : List (List Nat × Nat) := []
  activity_instances : List (Nat × List Nat) := []
  service_instances : List (Nat × List Nat) := []
  scope_instances : List (Nat × List Nat) := []
  view_instances : List (Nat × List Nat) := []
  record_count : Nat := 0
  heap_records : Nat := 0
deriving DecidableEq

/-- Counter increment: `instance_counts[class_name] += 1`. -/
def bump (k : List Nat) (m : List (List Nat × Nat)) : List (List Nat × Nat) :=
  (k, (m.lookup k).getD 0 + 1) :: m

/-- ASCII lowering of one byte, as Python str.lower acts on ASCII text. -/
def lowerByte (b : Nat) : Nat := if 65 ≤ b ∧ b ≤ 90 then b + 32 else b

/-- Python str.lower on the (ASCII) class name. -/
def lowerBytes (l : List Nat) : List Nat := l.map lowerByte

/-- Python substring test: needle in hay. -/
def containsSub (needle hay : List Nat) : Bool :=
  hay.tails.any (fun t => needle.isPrefixOf t)

/-- BASIC_TYPE_SIZES from the source: hprof basic-type code to byte width. -/
def BASIC_TYPE_SIZES : List (Nat × Nat) :=
  [(2, 4), (4, 1), (5, 2), (6, 4), (7, 8), (8, 1), (9, 2), (10, 4), (11, 8)]

/-- BASIC_TYPE_SIZES.get(tp, deflt). -/
def basicSize (tp deflt : Nat) : Nat := (BASIC_TYPE_SIZES.lookup tp).getD deflt

/-- Lowercase hex rendering of a number, as Python format(id, "#x") without
the 0x prefix. -/
def hexStr (n : Nat) : List Nat := (Nat.toDigits 16 n).map Char.toNat

/-- The synthetic name for an unresolved class id:
the f-string unknown_{class_id:#x} from the source. -/
def placeholderName (id : Nat) : List Nat := asc "unknown_0x" ++ hexStr id

/-- suspect_keywords from the source (the configured named-suspect list). -/
def suspect_keywords : List (List Nat) :=
  [asc "MqttConnectionManager", asc "LocationMqttService", asc "MqttForegroundService",
   asc "SmartLocationSyncManager", asc "LocationReportService", asc "DeviceRepository",
   asc "ContactRepository", asc "AuthRepository", asc "CommunicationManager",
   asc "SmartLocator", asc "TencentLocationService", asc "TencentLocationManager",
   asc "GeofenceManager", asc "LocationStateMachine", asc "SoundPlaybackService",
   asc "LostModeService", asc "MainViewModel", asc "ContactViewModel"]

/-- The substrings that gate the should-be-singleton flag in the suspect
report pass. -/
def flag_substrings : List (List Nat) :=
  [asc "Manager", asc "Service", asc "Repository", asc "Singleton", asc "ViewModel"]

/-- The TAG_LOAD_CLASS record body: store serial-to-name-id and
class-id-to-serial, and resolve the class name now iff the STRING record for
name_id has already been seen (the only place class_id_to_name is written). -/
def processLoadClass (serial classObjId nameId : Nat) (st : St) : St :=
  let st := { st with
    class_names := (serial, nameId) :: st.class_names,
    class_id_to_serial := (classObjId, serial) :: st.class_id_to_serial }
  match st.strings.lookup nameId with
  | some s => { st with class_id_to_name := (classObjId, s) :: st.class_id_to_name }
  | none => st

/-- The SUB_INSTANCE_DUMP classification chain: tally the instance count,
then the first-match-wins elif chain over the four category buckets. -/
def classifyInstance (objId : Nat) (className : List Nat) (st : St) : St :=
  let st := { st with instance_counts := bump className st.instance_counts }
  let cnLower := lowerBytes className
  if containsSub (asc "activity") cnLower && containsSub (asc "me/ikate/findmy") className then
    { st with activity_instances := st.activity_instances ++ [(objId, className)] }
  else if containsSub (asc "service") cnLower && containsSub (asc "me/ikate/findmy") className then
    { st with service_instances := st.service_instances ++ [(objId, className)] }
  else if containsSub (asc "coroutinescope") cnLower || containsSub (asc "supervisorjob") cnLower
      || containsSub (asc "jobimpl") cnLower then
    { st with scope_instances := st.scope_instances ++ [(objId, className)] }
  else if (containsSub (asc "view") cnLower || containsSub (asc "fragment") cnLower)
      && containsSub (asc "me/ikate/findmy") className then
    { st with view_instances := st.view_instances ++ [(objId, className)] }
  else st

/-- The SUB_CLASS_DUMP constant-pool loop: each entry reads a 2-byte index, a
1-byte type, and then plain-reads the type's value bytes. -/
def cpLoop (data : List Nat) (idSize : Nat) : Nat → Nat → Except Err Nat
  | 0, pos => .ok pos
  | k + 1, pos =>
    match readExact data pos 2 with
    | .error e => .error e
    | .ok (_idx, pos) =>
      match readExact data pos 1 with
      | .error e => .error e
      | .ok (tp, pos) =>
        let r := readBytes data pos (((basicSize tp idSize : Nat) : Int))
        cpLoop data idSize k r.2

/-- The SUB_CLASS_DUMP static-field loop: name id, 1-byte type, value bytes. -/
def sfLoop (data : List Nat) (idSize : Nat) : Nat → Nat → Except Err Nat
  | 0, pos => .ok pos
  | k + 1, pos =>
    match readId idSize data pos with
    | .error e => .error e
    | .ok (_nameId, pos) =>
      match readExact data pos 1 with
      | .error e => .error e
      | .ok (tp, pos) =>
        let r := readBytes data pos (((basicSize tp idSize : Nat) : Int))
        sfLoop data idSize k r.2

/-- The SUB_CLASS_DUMP instance-field loop: name id and 1-byte type only. -/
def ifLoop (data : List Nat) (idSize : Nat) : Nat → Nat → Except Err Nat
  | 0, pos => .ok pos
  | k + 1, pos =>
    match readId idSize data pos with
    | .error e => .error e
    | .ok (_nameId, pos) =>
      match readExact data pos 1 with
      | .error e => .error e
      | .ok (_tp, pos) =>
        ifLoop data idSize k pos

/-- Outcome of one sub-record dispatch inside a heap-dump segment: continue
the segment loop at the new position, or stop it (the unknown-sub-tag seek
to the segment end). -/
inductive SubOut
  | cont (pos : Nat) (st : St)
  | stop (pos : Nat) (st : St)
deriving DecidableEq

/-- ROOT_JNI_GLOBAL (0x01): object id, JNI global ref id; record the root. -/
def subRootJniGlobal (data : List Nat) (idSize pos : Nat) (st : St) : Except Err SubOut :=
  match readId idSize data pos with
  | .error e => .error e
  | .ok (objId, pos) =>
    match readId idSize data pos with
    | .error e => .error e
    | .ok (_jniRef, pos) =>
      .ok (.cont pos { st with gc_roots := st.gc_roots ++ [(asc "JNI_GLOBAL", objId)] })

/-- ROOT_JNI_LOCAL (0x02): object id, thread serial, frame number. -/
def subRootJniLocal (data : List Nat) (idSize pos : Nat) (st : St) : Except Err SubOut :=
  match readId idSize data pos with
  | .error e => .error e
  | .ok (objId, pos) =>
    match readExact data pos 4 with
    | .error e => .error e
    | .ok (_threadSerial, pos) =>
      match readExact data pos 4 with
      | .error e => .error e
      | .ok (_frameNum, pos) =>
        .ok (.cont pos { st with gc_roots := st.gc_roots ++ [(asc "JNI_LOCAL", objId)] })

/-- ROOT_JAVA_FRAME (0x03): object id, thread serial, frame number. -/
def subRootJavaFrame (data : List Nat) (idSize pos : Nat) (st : St) : Except Err SubOut :=
  match readId idSize data pos with
  | .error e => .error e
  | .ok (objId, pos) =>
    match readExact data pos 4 with
    | .error e => .error e
    | .ok (_threadSerial, pos) =>
      match readExact data pos 4 with
      | .error e => .error e
      | .ok (_frameNum, pos) =>
        .ok (.cont pos { st with gc_roots := st.gc_roots ++ [(asc "JAVA_FRAME", objId)] })

/-- ROOT_NATIVE_STACK (0x04): object id, thread serial. -/
def subRootNativeStack (data : List Nat) (idSize pos : Nat) (st : St) : Except Err SubOut :=
  match readId idSize data pos with
  | .error e => .error e
  | .ok (objId, pos) =>
    match readExact data pos 4 with
    | .error e => .error e
    | .ok (_threadSerial, pos) =>
      .ok (.cont pos { st with gc_roots := st.gc_roots ++ [(asc "NATIVE_STACK", objId)] })

/-- ROOT_STICKY_CLASS (0x05): object id only. -/
def subRootStickyClass (data : List Nat) (idSize pos : Nat) (st : St) : Except Err SubOut :=
  match readId idSize data pos with
  | .error e => .error e
  | .ok (objId, pos) =>
    .ok (.cont pos { st with gc_roots := st.gc_roots ++ [(asc "STICKY_CLASS", objId)] })

/-- ROOT_THREAD_BLOCK (0x06): object id, thread serial. -/
def subRootThreadBlock (data : List Nat) (idSize pos : Nat) (st : St) : Except Err SubOut :=
  match readId idSize data pos with
  | .error e => .error e
  | .ok (objId, pos) =>
    match readExact data pos 4 with
    | .error e => .error e
    | .ok (_threadSerial, pos) =>
      .ok (.cont pos { st with gc_roots := st.gc_roots ++ [(asc "THREAD_BLOCK", objId)] })

/-- ROOT_MONITOR_USED (0x07): object id only. -/
def subRootMonitorUsed (data : List Nat) (idSize pos : Nat) (st : St) : Except Err SubOut :=
  match readId idSize data pos with
  | .error e => .error e
  | .ok (objId, pos) =>
    .ok (.cont pos { st with gc_roots := st.gc_roots ++ [(asc "MONITOR_USED", objId)] })

/-- ROOT_THREAD_OBJ (0x08): object id, thread serial, stack serial. -/
def subRootThreadObj (data : List Nat) (idSize pos : Nat) (st : St) : Except Err SubOut :=
  match readId idSize data pos with
  | .error e => .error e
  | .ok (objId, pos) =>
    match readExact data pos 4 with
    | .error e => .error e
    | .ok (_threadSerial, pos) =>
      match readExact data pos 4 with
      | .error e => .error e
      | .ok (_stackSerial, pos) =>
        .ok (.cont pos { st with gc_roots := st.gc_roots ++ [(asc "THREAD_OBJ", objId)] })

/-- SUB_CLASS_DUMP (0x20): header ids, the super-class edge, then constant
pool, static fields and instance fields. -/
def subClassDump (data : List Nat) (idSize pos : Nat) (st : St) : Except Err SubOut :=
  match readId idSize data pos with
  | .error e => .error e
  | .ok (classId, pos) =>
    match readExact data pos 4 with
    | .error e => .error e
    | .ok (_stackSerial, pos) =>
      match readId idSize data pos with
      | .error e => .error e
      | .ok (superClassId, pos) =>
        let st := { st with class_super := (classId, superClassId) :: st.class_super }
        match readId idSize data pos with
        | .error e => .error e
        | .ok (_loaderId, pos) =>
          match readId idSize data pos with
          | .error e => .error e
          | .ok (_signersId, pos) =>
            match readId idSize data pos with
            | .error e => .error e
            | .ok (_protDomainId, pos) =>
              match readId idSize data pos with
              | .error e => .error e
              | .ok (_reserved1, pos) =>
                match readId idSize data pos with
                | .error e => .error e
                | .ok (_reserved2, pos) =>
                  match readExact data pos 4 with
                  | .error e => .error e
                  | .ok (_instanceSize, pos) =>
                    match readExact data pos 2 with
                    | .error e => .error e
                    | .ok (cpCount, pos) =>
                      match cpLoop data idSize cpCount pos with
                      | .error e => .error e
                      | .ok pos =>
                        match readExact data pos 2 with
                        | .error e => .error e
                        | .ok (sfCount, pos) =>
                          match sfLoop data idSize sfCount pos with
                          | .error e => .error e
                          | .ok pos =>
                            match readExact data pos 2 with
                            | .error e => .error e
                            | .ok (ifCount, pos) =>
                              match ifLoop data idSize ifCount pos with
                              | .error e => .error e
                              | .ok pos => .ok (.cont pos st)

/-- SUB_INSTANCE_DUMP (0x21): object id, stack serial, class id, data length,
skipped payload; then resolve the class name (placeholder when unresolved)
and classify. -/
def subInstanceDump (data : List Nat) (idSize pos : Nat) (st : St) : Except Err SubOut :=
  match readId idSize data pos with
  | .error e => .error e
  | .ok (objId, pos) =>
    match readExact data pos 4 with
    | .error e => .error e
    | .ok (_stackSerial, pos) =>
      match readId idSize data pos with
      | .error e => .error e
      | .ok (classId, pos) =>
        match readExact data pos 4 with
        | .error e => .error e
        | .ok (dataLen, pos) =>
          let r := readBytes data pos ((dataLen : Int))
          let className := (st.class_id_to_name.lookup classId).getD (placeholderName classId)
          .ok (.cont r.2 (classifyInstance objId className st))

/-- SUB_OBJ_ARRAY_DUMP (0x22): object id, stack serial, element count, array
class id, then element-count times id-size skipped bytes. -/
def subObjArrayDump (data : List Nat) (idSize pos : Nat) (st : St) : Except Err SubOut :=
  match readId idSize data pos with
  | .error e => .error e
  | .ok (_objId, pos) =>
    match readExact data pos 4 with
    | .error e => .error e
    | .ok (_stackSerial, pos) =>
      match readExact data pos 4 with
      | .error e => .error e
      | .ok (numElements, pos) =>
        match readId idSize data pos with
        | .error e => .error e
        | .ok (_arrayClassId, pos) =>
          let r := readBytes data pos (((numElements * idSize : Nat) : Int))
          .ok (.cont r.2 st)

/-- SUB_PRIM_ARRAY_DUMP (0x23): object id, stack serial, element count,
element type, then the elements (basic-type size, default 1) skipped. -/
def subPrimArrayDump (data : List Nat) (idSize pos : Nat) (st : St) : Except Err SubOut :=
  match readId idSize data pos with
  | .error e => .error e
  | .ok (_objId, pos) =>
    match readExact data pos 4 with
    | .error e => .error e
    | .ok (_stackSerial, pos) =>
      match readExact data pos 4 with
      | .error e => .error e
      | .ok (numElements, pos) =>
        match readExact data pos 1 with
        | .error e => .error e
        | .ok (elemType, pos) =>
          let r := readBytes data pos (((numElements * basicSize elemType 1 : Nat) : Int))
          .ok (.cont r.2 st)

/-- ROOT_UNKNOWN (0xFF): object id; recorded as root type UNKNOWN. -/
def subRootUnknownFF (data : List Nat) (idSize pos : Nat) (st : St) : Except Err SubOut :=
  match readId idSize data pos with
  | .error e => .error e
  | .ok (objId, pos) =>
    .ok (.cont pos { st with gc_roots := st.gc_roots ++ [(asc "UNKNOWN", objId)] })

/-- The Android vendor root sub-tags 0x89, 0x8B, 0x8D, 0xC3, 0x8A, 0x90: the
object id is read and discarded; nothing is appended to gc_roots (exactly as
in the source). -/
def subVendorRoot (data : List Nat) (idSize pos : Nat) (st : St) : Except Err SubOut :=
  match readId idSize data pos with
  | .error e => .error e
  | .ok (_objId, pos) => .ok (.cont pos st)

/-- HEAP_DUMP_INFO (0xFE): heap type word and a name id, both discarded. -/
def subHeapDumpInfo (data : List Nat) (idSize pos : Nat) (st : St) : Except Err SubOut :=
  match readExact data pos 4 with
  | .error e => .error e
  | .ok (_heapType, pos) =>
    match readId idSize data pos with
    | .error e => .error e
    | .ok (_nameId, pos) => .ok (.cont pos st)

/-- One iteration body of the heap-dump sub-record loop, after the 1-byte
sub-tag has been read: the elif chain of the source, clause for clause; the
final else is the seek(end_pos) plus break on an unknown sub-tag. -/
def dispatchSub (data : List Nat) (idSize endPos subTag pos : Nat) (st : St) :
    Except Err SubOut :=
  if subTag = 0x01 then subRootJniGlobal data idSize pos st
  else if subTag = 0x02 then subRootJniLocal data idSize pos st
  else if subTag = 0x03 then subRootJavaFrame data idSize pos st
  else if subTag = 0x04 then subRootNativeStack data idSize pos st
  else if subTag = 0x05 then subRootStickyClass data idSize pos st
  else if subTag = 0x06 then subRootThreadBlock data idSize pos st
  else if subTag = 0x07 then subRootMonitorUsed data idSize pos st
  else if subTag = 0x08 then subRootThreadObj data idSize pos st
  else if subTag = 0x20 then subClassDump data idSize pos st
  else if subTag = 0x21 then subInstanceDump data idSize pos st
  else if subTag = 0x22 then subObjArrayDump data idSize pos st
  else if subTag = 0x23 then subPrimArrayDump data idSize pos st
  else if subTag = 0xFF then subRootUnknownFF data idSize pos st
  else if subTag = 0x89 then subVendorRoot data idSize pos st
  else if subTag = 0x8B then subVendorRoot data idSize pos st
  else if subTag = 0x8D then subVendorRoot data idSize pos st
  else if subTag = 0xFE then subHeapDumpInfo data idSize pos st
  else if subTag = 0xC3 then subVendorRoot data idSize pos st
  else if subTag = 0x8A then subVendorRoot data idSize pos st
  else if subTag = 0x90 then subVendorRoot data idSize pos st
  else .ok (.stop endPos st)

theorem readBytes_natCast (data : List Nat) (pos n : Nat) :
    readBytes data pos (n : Int) =
      ((data.drop pos).take n, pos + ((data.drop pos).take n).length) := by
  unfold readBytes
  rw [if_neg (by omega : ¬ ((n : Int) < 0))]
  simp

theorem readExact_ok_iff {data : List Nat} {pos n v p' : Nat} :
    readExact data pos n = .ok (v, p') ↔
      ((data.drop pos).take n).length = n ∧ beVal ((data.drop pos).take n) = v
        ∧ p' = pos + n := by
  simp only [readExact, readBytes_natCast]
  constructor
  · intro h
    split at h
    · rename_i hl
      simp only [Except.ok.injEq, Prod.mk.injEq] at h
      exact ⟨hl, h.1, by omega⟩
    · exact absurd h (by simp)
  · rintro ⟨hl, hv, hp⟩
    rw [if_pos hl]
    simp [hv, hp, hl]

theorem readId_ok_iff {idSize : Nat} {data : List Nat} {pos v p' : Nat} :
    readId idSize data pos = .ok (v, p') ↔
      (idSize = 4 ∧ readExact data pos 4 = .ok (v, p')) ∨
      (¬ idSize = 4 ∧ readExact data pos 8 = .ok (v, p')) := by
  unfold readId
  split <;> simp_all

theorem cpLoop_ok_pos {data : List Nat} {idSize : Nat} :
    ∀ {k pos p' : Nat}, cpLoop data idSize k pos = .ok p' → pos ≤ p' := by
  intro k
  induction k with
  | zero =>
    intro pos p' h
    simp only [cpLoop, Except.ok.injEq] at h
    omega
  | succ k ih =>
    intro pos p' h
    simp only [cpLoop] at h
    split at h
    · exact absurd h (by simp)
    · split at h
      · exact absurd h (by simp)
      · have e4 := ih h
        simp only [readExact_ok_iff, readBytes_snd] at *
        omega

theorem sfLoop_ok_pos {data : List Nat} {idSize : Nat} :
    ∀ {k pos p' : Nat}, sfLoop data idSize k pos = .ok p' → pos ≤ p' := by
  intro k
  induction k with
  | zero =>
    intro pos p' h
    simp only [sfLoop, Except.ok.injEq] at h
    omega
  | succ k ih =>
    intro pos p' h
    simp only [sfLoop] at h
    split at h
    · exact absurd h (by simp)
    · split at h
      · exact absurd h (by simp)
      · have e4 := ih h
        simp only [readId_ok_iff, readExact_ok_iff, readBytes_snd] at *
        omega

theorem ifLoop_ok_pos {data : List Nat} {idSize : Nat} :
    ∀ {k pos p' : Nat}, ifLoop data idSize k pos = .ok p' → pos ≤ p' := by
  intro k
  induction k with
  | zero =>
    intro pos p' h
    simp only [ifLoop, Except.ok.injEq] at h
    omega
  | succ k ih =>
    intro pos p' h
    simp only [ifLoop] at h
    split at h
    · exact absurd h (by simp)
    · split at h
      · exact absurd h (by simp)
      · have e4 := ih h
        simp only [readId_ok_iff, readExact_ok_iff, readBytes_snd] at *
        omega

theorem subRootJniGlobal_out {data : List Nat} {idSize pos : Nat} {st : St} {out : SubOut}
    (h : subRootJniGlobal data idSize pos st = .ok out) :
    ∃ p2 st2, out = .cont p2 st2 ∧ pos ≤ p2 := by
  unfold subRootJniGlobal at h
  repeat' split at h
  all_goals simp only [Except.ok.injEq, reduceCtorEq] at h
  all_goals subst h
  all_goals refine ⟨_, _, rfl, ?_⟩
  all_goals simp only [readId_ok_iff, readExact_ok_iff, readBytes_snd] at *
  all_goals omega

theorem subRootJniLocal_out {data : List Nat} {idSize pos : Nat} {st : St} {out : SubOut}
    (h : subRootJniLocal data idSize pos st = .ok out) :
    ∃ p2 st2, out = .cont p2 st2 ∧ pos ≤ p2 := by
  unfold subRootJniLocal at h
  repeat' split at h
  all_goals simp only [Except.ok.injEq, reduceCtorEq] at h
  all_goals subst h
  all_goals refine ⟨_, _, rfl, ?_⟩
  all_goals simp only [readId_ok_iff, readExact_ok_iff, readBytes_snd] at *
  all_goals omega

theorem subRootJavaFrame_out {data : List Nat} {idSize pos : Nat} {st : St} {out : SubOut}
    (h : subRootJavaFrame data idSize pos st = .ok out) :
    ∃ p2 st2, out = .cont p2 st2 ∧ pos ≤ p2 := by
  unfold subRootJavaFrame at h
  repeat' split at h
  all_goals simp only [Except.ok.injEq, reduceCtorEq] at h
  all_goals subst h
  all_goals refine ⟨_, _, rfl, ?_⟩
  all_goals simp only [readId_ok_iff, readExact_ok_iff, readBytes_snd] at *
  all_goals omega

theorem subRootNativeStack_out {data : List Nat} {idSize pos : Nat} {st : St} {out : SubOut}
    (h : subRootNativeStack data idSize pos st = .ok out) :
    ∃ p2 st2, out = .cont p2 st2 ∧ pos ≤ p2 := by
  unfold subRootNativeStack at h
  repeat' split at h
  all_goals simp only [Except.ok.injEq, reduceCtorEq] at h
  all_goals subst h
  all_goals refine ⟨_, _, rfl, ?_⟩
  all_goals simp only [readId_ok_iff, readExact_ok_iff, readBytes_snd] at *
  all_goals omega

theorem subRootStickyClass_out {data : List Nat} {idSize pos : Nat} {st : St} {out : SubOut}
    (h : subRootStickyClass data idSize pos st = .ok out) :
    ∃ p2 st2, out = .cont p2 st2 ∧ pos ≤ p2 := by
  unfold subRootStickyClass at h
  repeat' split at h
  all_goals simp only [Except.ok.injEq, reduceCtorEq] at h
  all_goals subst h
  all_goals refine ⟨_, _, rfl, ?_⟩
  all_goals simp only [readId_ok_iff, readExact_ok_iff, readBytes_snd] at *
  all_goals omega

theorem subRootThreadBlock_out {data : List Nat} {idSize pos : Nat} {st : St} {out : SubOut}
    (h : subRootThreadBlock data idSize pos st = .ok out) :
    ∃ p2 st2, out = .cont p2 st2 ∧ pos ≤ p2 := by
  unfold subRootThreadBlock at h
  repeat' split at h
  all_goals simp only [Except.ok.injEq, reduceCtorEq] at h
  all_goals subst h
  all_goals refine ⟨_, _, rfl, ?_⟩
  all_goals simp only [readId_ok_iff, readExact_ok_iff, readBytes_snd] at *
  all_goals omega

theorem subRootMonitorUsed_out {data : List Nat} {idSize pos : Nat} {st : St} {out : SubOut}
    (h : subRootMonitorUsed data idSize pos st = .ok out) :
    ∃ p2 st2, out = .cont p2 st2 ∧ pos ≤ p2 := by
  unfold subRootMonitorUsed at h
  repeat' split at h
  all_goals simp only [Except.ok.injEq, reduceCtorEq] at h
  all_goals subst h
  all_goals refine ⟨_, _, rfl, ?_⟩
  all_goals simp only [readId_ok_iff, readExact_ok_iff, readBytes_snd] at *
  all_goals omega

theorem subRootThreadObj_out {data : List Nat} {idSize pos : Nat} {st : St} {out : SubOut}
    (h : subRootThreadObj data idSize pos st = .ok out) :
    ∃ p2 st2, out = .cont p2 st2 ∧ pos ≤ p2 := by
  unfold subRootThreadObj at h
  repeat' split at h
  all_goals simp only [Except.ok.injEq, reduceCtorEq] at h
  all_goals subst h
  all_goals refine ⟨_, _, rfl, ?_⟩
  all_goals simp only [readId_ok_iff, readExact_ok_iff, readBytes_snd] at *
  all_goals omega

theorem subInstanceDump_out {data : List Nat} {idSize pos : Nat} {st : St} {out : SubOut}
    (h : subInstanceDump data idSize pos st = .ok out) :
    ∃ p2 st2, out = .cont p2 st2 ∧ pos ≤ p2 := by
  unfold subInstanceDump at h
  repeat' split at h
  all_goals simp only [Except.ok.injEq, reduceCtorEq] at h
  all_goals subst h
  all_goals refine ⟨_, _, rfl, ?_⟩
  all_goals simp only [readId_ok_iff, readExact_ok_iff, readBytes_snd] at *
  all_goals omega

theorem subObjArrayDump_out {data : List Nat} {idSize pos : Nat} {st : St} {out : SubOut}
    (h : subObjArrayDump data idSize pos st = .ok out) :
    ∃ p2 st2, out = .cont p2 st2 ∧ pos ≤ p2 := by
  unfold subObjArrayDump at h
  repeat' split at h
  all_goals simp only [Except.ok.injEq, reduceCtorEq] at h
  all_goals subst h
  all_goals refine ⟨_, _, rfl, ?_⟩
  all_goals simp only [readId_ok_iff, readExact_ok_iff, readBytes_snd] at *
  all_goals omega

theorem subPrimArrayDump_out {data : List Nat} {idSize pos : Nat} {st : St} {out : SubOut}
    (h : subPrimArrayDump data idSize pos st = .ok out) :
    ∃ p2 st2, out = .cont p2 st2 ∧ pos ≤ p2 := by
  unfold subPrimArrayDump at h
  repeat' split at h
  all_goals simp only [Except.ok.injEq, reduceCtorEq] at h
  all_goals subst h
  all_goals refine ⟨_, _, rfl, ?_⟩
  all_goals simp only [readId_ok_iff, readExact_ok_iff, readBytes_snd] at *
  all_goals omega

theorem subRootUnknownFF_out {data : List Nat} {idSize pos : Nat} {st : St} {out : SubOut}
    (h : subRootUnknownFF data idSize pos st = .ok out) :
    ∃ p2 st2, out = .cont p2 st2 ∧ pos ≤ p2 := by
  unfold subRootUnknownFF at h
  repeat' split at h
  all_goals simp only [Except.ok.injEq, reduceCtorEq] at h
  all_goals subst h
  all_goals refine ⟨_, _, rfl, ?_⟩
  all_goals simp only [readId_ok_iff, readExact_ok_iff, readBytes_snd] at *
  all_goals omega

theorem subVendorRoot_out {data : List Nat} {idSize pos : Nat} {st : St} {out : SubOut}
    (h : subVendorRoot data idSize pos st = .ok out) :
    ∃ p2 st2, out = .cont p2 st2 ∧ pos ≤ p2 := by
  unfold subVendorRoot at h
  repeat' split at h
  all_goals simp only [Except.ok.injEq, reduceCtorEq] at h
  all_goals subst h
  all_goals refine ⟨_, _, rfl, ?_⟩
  all_goals simp only [readId_ok_iff, readExact_ok_iff, readBytes_snd] at *
  all_goals omega

theorem subHeapDumpInfo_out {data : List Nat} {idSize pos : Nat} {st : St} {out : SubOut}
    (h : subHeapDumpInfo data idSize pos st = .ok out) :
    ∃ p2 st2, out = .cont p2 st2 ∧ pos ≤ p2 := by
  unfold subHeapDumpInfo at h
  repeat' split at h
  all_goals simp only [Except.ok.injEq, reduceCtorEq] at h
  all_goals subst h
  all_goals refine ⟨_, _, rfl, ?_⟩
  all_goals simp only [readId_ok_iff, readExact_ok_iff, readBytes_snd] at *
  all_goals omega

theorem subClassDump_out {data : List Nat} {idSize pos : Nat} {st : St} {out : SubOut}
    (h : subClassDump data idSize pos st = .ok out) :
    ∃ p2 st2, out = .cont p2 st2 ∧ pos ≤ p2 := by
  unfold subClassDump at h
  repeat' split at h
  all_goals simp only [Except.ok.injEq, reduceCtorEq] at h
  all_goals subst h
  all_goals refine ⟨_, _, rfl, ?_⟩
  all_goals
    (rename cpLoop _ _ _ _ = _ => hcp
     rename sfLoop _ _ _ _ = _ => hsf
     rename ifLoop _ _ _ _ = _ => hif
     have m1 := cpLoop_ok_pos hcp
     have m2 := sfLoop_ok_pos hsf
     have m3 := ifLoop_ok_pos hif
     simp only [readId_ok_iff, readExact_ok_iff, readBytes_snd] at *
     omega)

/-- Every successful sub-record dispatch either continues at a not-earlier
position or stops at exactly the declared segment end with the state
untouched. -/
theorem dispatchSub_out {data : List Nat} {idSize endPos subTag pos : Nat} {st : St}
    {out : SubOut} (h : dispatchSub data idSize endPos subTag pos st = .ok out) :
    (∃ p2 st2, out = .cont p2 st2 ∧ pos ≤ p2) ∨ out = .stop endPos st := by
  unfold dispatchSub at h
  by_cases e0 : subTag = 1
  · rw [if_pos e0] at h
    exact Or.inl (subRootJniGlobal_out h)
  rw [if_neg e0] at h
  by_cases e1 : subTag = 2
  · rw [if_pos e1] at h
    exact Or.inl (subRootJniLocal_out h)
  rw [if_neg e1] at h
  by_cases e2 : subTag = 3
  · rw [if_pos e2] at h
    exact Or.inl (subRootJavaFrame_out h)
  rw [if_neg e2] at h
  by_cases e3 : subTag = 4
  · rw [if_pos e3] at h
    exact Or.inl (subRootNativeStack_out h)
  rw [if_neg e3] at h
  by_cases e4 : subTag = 5
  · rw [if_pos e4] at h
    exact Or.inl (subRootStickyClass_out h)
  rw [if_neg e4] at h
  by_cases e5 : subTag = 6
  · rw [if_pos e5] at h
    exact Or.inl (subRootThreadBlock_out h)
  rw [if_neg e5] at h
  by_cases e6 : subTag = 7
  · rw [if_pos e6] at h
    exact Or.inl (subRootMonitorUsed_out h)
  rw [if_neg e6] at h
  by_cases e7 : subTag = 8
  · rw [if_pos e7] at h
    exact Or.inl (subRootThreadObj_out h)
  rw [if_neg e7] at h
  by_cases e8 : subTag = 32
  · rw [if_pos e8] at h
    exact Or.inl (subClassDump_out h)
  rw [if_neg e8] at h
  by_cases e9 : subTag = 33
  · rw [if_pos e9] at h
    exact Or.inl (subInstanceDump_out h)
  rw [if_neg e9] at h
  by_cases e10 : subTag = 34
  · rw [if_pos e10] at h
    exact Or.inl (subObjArrayDump_out h)
  rw [if_neg e10] at h
  by_cases e11 : subTag = 35
  · rw [if_pos e11] at h
    exact Or.inl (subPrimArrayDump_out h)
  rw [if_neg e11] at h
  by_cases e12 : subTag = 255
  · rw [if_pos e12] at h
    exact Or.inl (subRootUnknownFF_out h)
  rw [if_neg e12] at h
  by_cases e13 : subTag = 137
  · rw [if_pos e13] at h
    exact Or.inl (subVendorRoot_out h)
  rw [if_neg e13] at h
  by_cases e14 : subTag = 139
  · rw [if_pos e14] at h
    exact Or.inl (subVendorRoot_out h)
  rw [if_neg e14] at h
  by_cases e15 : subTag = 141
  · rw [if_pos e15] at h
    exact Or.inl (subVendorRoot_out h)
  rw [if_neg e15] at h
  by_cases e16 : subTag = 254
  · rw [if_pos e16] at h
    exact Or.inl (subHeapDumpInfo_out h)
  rw [if_neg e16] at h
  by_cases e17 : subTag = 195
  · rw [if_pos e17] at h
    exact Or.inl (subVendorRoot_out h)
  rw [if_neg e17] at h
  by_cases e18 : subTag = 138
  · rw [if_pos e18] at h
    exact Or.inl (subVendorRoot_out h)
  rw [if_neg e18] at h
  by_cases e19 : subTag = 144
  · rw [if_pos e19] at h
    exact Or.inl (subVendorRoot_out h)
  rw [if_neg e19] at h
  injection h with h2
  exact Or.inr h2.symm

/-- The inner while loop over one heap-dump segment: while the cursor is
before the declared segment end, read a 1-byte sub-tag (struct.unpack, so a
truncation here is fatal) and dispatch; an unknown sub-tag stops the loop
with the cursor seeked to the segment end.  The loop guard compares the
position only before each sub-tag read, never inside a sub-record. -/
def decodeSegment (data : List Nat) (idSize endPos pos : Nat) (st : St) :
    Except Err (Nat × St) :=
  if hlt : pos < endPos then
    match hr : readExact data pos 1 with
    | .error e => .error e
    | .ok (subTag, pos1) =>
      match hd : dispatchSub data idSize endPos subTag pos1 st with
      | .error e => .error e
      | .ok (.stop p2 st2) => .ok (p2, st2)
      | .ok (.cont p2 st2) => decodeSegment data idSize endPos p2 st2
  else .ok (pos, st)
termination_by endPos - pos
decreasing_by
  have h1 : pos1 = pos + 1 := readExact_ok_pos hr
  rcases dispatchSub_out hd with ⟨p3, st3, he, hle⟩ | he
  · injection he with he1 he2
    omega
  · exact absurd he (by simp)

theorem decodeSegment_pos_mono_aux {data : List Nat} {idSize endPos : Nat} :
    ∀ (n pos : Nat) (st : St) (p' : Nat) (st' : St), endPos - pos ≤ n →
      decodeSegment data idSize endPos pos st = .ok (p', st') → pos ≤ p' := by
  intro n
  induction n with
  | zero =>
    intro pos st p' st' hn h
    unfold decodeSegment at h
    rw [dif_neg (by omega)] at h
    injection h with h2
    injection h2 with h3 h4
    omega
  | succ n ih =>
    intro pos st p' st' hn h
    unfold decodeSegment at h
    split at h
    · rename_i hlt
      split at h
      · exact absurd h (by simp)
      · rename_i subTag pos1 hr
        split at h
        · exact absurd h (by simp)
        · rename_i p2 st2 hd
          injection h with h2
          injection h2 with h3 h4
          rcases dispatchSub_out hd with ⟨p3, st3, he, hle⟩ | he
          · exact absurd he (by simp)
          · injection he with he1 he2
            have e1 := readExact_ok_pos hr
            omega
        · rename_i p2 st2 hd
          rcases dispatchSub_out hd with ⟨p3, st3, he, hle⟩ | he
          · injection he with he1 he2
            have e1 := readExact_ok_pos hr
            have e2 := ih p2 st2 p' st' (by omega) h
            omega
          · exact absurd he (by simp)
    · injection h with h2
      injection h2 with h3 h4
      omega

theorem decodeSegment_ok_pos {data : List Nat} {idSize endPos pos : Nat} {st : St}
    {p' : Nat} {st' : St}
    (h : decodeSegment data idSize endPos pos st = .ok (p', st')) : pos ≤ p' :=
  decodeSegment_pos_mono_aux (endPos - pos) pos st p' st' le_rfl h

theorem readBytes_one_nonempty {data : List Nat} {pos : Nat}
    (h : ¬ ((readBytes data pos 1).1 = [])) :
    pos < data.length ∧ (readBytes data pos 1).2 = pos + 1 := by
  unfold readBytes at *
  rw [if_neg (by decide : ¬ ((1 : Int) < 0))] at *
  simp only [Int.toNat_one] at *
  have hd : data.drop pos ≠ [] := by
    intro hc
    exact h (by simp [hc])
  have hlen : pos < data.length := by
    by_contra hc
    exact hd (List.drop_eq_nil_of_le (by omega))
  refine ⟨hlen, ?_⟩
  obtain ⟨a, t, ht⟩ := List.exists_cons_of_ne_nil hd
  simp [ht]

/-- The top-level record loop of analyze_hprof: read a 1-byte tag (an empty
read is the clean end-of-stream stop), a 4-byte record timestamp and a
4-byte length (both struct.unpack, fatal when truncated), bump the record
count, then dispatch: STRING (0x01), LOAD_CLASS (0x02), the heap-dump tags
(0x0C, 0x1C) delegating [pos, pos+length) to decodeSegment, and any other
tag skipping length bytes. -/
def topLoop (data : List Nat) (idSize pos : Nat) (st : St) : Except Err St :=
  if hempty : ((readBytes data pos 1).1 = []) then .ok st
  else
    let tag := beVal (readBytes data pos 1).1
    match h1 : readExact data (readBytes data pos 1).2 4 with
    | .error e => .error e
    | .ok (_timestamp, pos1) =>
      match h2 : readExact data pos1 4 with
      | .error e => .error e
      | .ok (length, pos2) =>
        let st := { st with record_count := st.record_count + 1 }
        if tag = 0x01 then
          match h3 : readId idSize data pos2 with
          | .error e => .error e
          | .ok (strId, pos3) =>
            let r := readBytes data pos3 ((length : Int) - (idSize : Int))
            topLoop data idSize r.2 { st with strings := (strId, r.1) :: st.strings }
        else if tag = 0x02 then
          match h3 : readExact data pos2 4 with
          | .error e => .error e
          | .ok (serial, pos3) =>
            match h4 : readId idSize data pos3 with
            | .error e => .error e
            | .ok (classObjId, pos4) =>
              match h5 : readExact data pos4 4 with
              | .error e => .error e
              | .ok (_stackSerial, pos5) =>
                match h6 : readId idSize data pos5 with
                | .error e => .error e
                | .ok (nameId, pos6) =>
                  topLoop data idSize pos6 (processLoadClass serial classObjId nameId st)
        else if tag = 0x0C ∨ tag = 0x1C then
          let st := { st with heap_records := st.heap_records + 1 }
          match h3 : decodeSegment data idSize (pos2 + length) pos2 st with
          | .error e => .error e
          | .ok (pos3, st3) => topLoop data idSize pos3 st3
        else
          topLoop data idSize (readBytes data pos2 (length : Int)).2 st
termination_by data.length + 1 - pos
decreasing_by
  all_goals have hone := readBytes_one_nonempty hempty
  all_goals have e1 := readExact_ok_pos h1
  all_goals have e2 := readExact_ok_pos h2
  all_goals first
  | (have e3 := readExact_ok_pos h3
     have e4 := readId_ok_pos h4
     have e5 := readExact_ok_pos h5
     have e6 := readId_ok_pos h6
     omega)
  | (have e3 := readId_ok_pos h3
     have e4 := readBytes_nonneg_pos data pos3 ((length : Int) - (idSize : Int))
     omega)
  | (have e3 := decodeSegment_ok_pos h3
     omega)
  | (have e3 := readBytes_nonneg_pos data pos2 (length : Int)
     omega)

/-- The header scan: read single bytes until a NUL terminator.  The source
loop has no end-of-stream exit: once read(1) starts returning empty byte
strings the loop spins forever.  It is therefore modelled with an iteration
budget; on any budget the scan returns `none` when the budget runs out, and
with budget data.length + 1 (as used by `analyze`) that happens exactly when
the stream holds no NUL byte, i.e. exactly when the source loop diverges. -/
def scanHeader (data : List Nat) : Nat → Nat → List Nat → Option (List Nat × Nat)
  | 0, _, _ => none
  | fuel + 1, pos, acc =>
    let r := readBytes data pos 1
    if r.1 = [0] then some (acc, r.2)
    else scanHeader data fuel r.2 (acc ++ r.1)

/-- One full analyze_hprof call on one byte stream: NUL-terminated header
scan, 4-byte id size (read but never validated), 8-byte timestamp, then the
record loop starting from a fresh state.  The outer Option is `none` exactly
when the header scan diverges (no NUL byte in the stream); otherwise the run
yields a summary state or a truncation error. -/
def analyze (data : List Nat) : Option (Except Err St) :=
  match scanHeader data (data.length + 1) 0 [] with
  | none => none
  | some (_header, pos) =>
    match readExact data pos 4 with
    | .error e => some (.error e)
    | .ok (idSize, pos) =>
      match readExact data pos 8 with
      | .error e => some (.error e)
      | .ok (_timestamp, pos) => some (topLoop data idSize pos {})

/-- Iteration-budgeted twin of `decodeSegment` (structural recursion on the
budget, so that concrete runs reduce in the kernel); `none` means the budget
ran out.  `decodeSegmentF_lift` transfers every budgeted run to
`decodeSegment`. -/
def decodeSegmentF (data : List Nat) (idSize endPos : Nat) :
    Nat → Nat → St → Option (Except Err (Nat × St))
  | 0, _, _ => none
  | fuel + 1, pos, st =>
    if pos < endPos then
      match readExact data pos 1 with
      | .error e => some (.error e)
      | .ok (subTag, pos1) =>
        match dispatchSub data idSize endPos subTag pos1 st with
        | .error e => some (.error e)
        | .ok (.stop p2 st2) => some (.ok (p2, st2))
        | .ok (.cont p2 st2) => decodeSegmentF data idSize endPos fuel p2 st2
    else some (.ok (pos, st))

theorem decodeSegmentF_lift {data : List Nat} {idSize endPos : Nat} :
    ∀ (fuel pos : Nat) (st : St) (r : Except Err (Nat × St)),
      decodeSegmentF data idSize endPos fuel pos st = some r →
      decodeSegment data idSize endPos pos st = r := by
  intro fuel
  induction fuel with
  | zero =>
    intro pos st r h
    exact absurd h (by simp [decodeSegmentF])
  | succ fuel ih =>
    intro pos st r h
    unfold decodeSegmentF at h
    unfold decodeSegment
    split
    · rename_i hlt
      rw [if_pos hlt] at h
      split
      · rename_i e heq
        simp only [heq, Option.some.injEq] at h
        exact h
      · rename_i subTag pos1 heq
        simp only [heq] at h
        split
        · rename_i e heq2
          simp only [heq2, Option.some.injEq] at h
          exact h
        · rename_i p2 st2 heq2
          simp only [heq2, Option.some.injEq] at h
          exact h
        · rename_i p2 st2 heq2
          simp only [heq2] at h
          exact ih p2 st2 r h
    · rename_i hlt
      rw [if_neg hlt] at h
      simp only [Option.some.injEq] at h
      exact h

/-- Iteration-budgeted twin of `topLoop`; `none` means the budget ran out.
`topLoopF_lift` transfers every budgeted run to `topLoop`. -/
def topLoopF (data : List Nat) (idSize : Nat) :
    Nat → Nat → St → Option (Except Err St)
  | 0, _, _ => none
  | fuel + 1, pos, st =>
    if (readBytes data pos 1).1 = [] then some (.ok st)
    else
      let tag := beVal (readBytes data pos 1).1
      match readExact data (readBytes data pos 1).2 4 with
      | .error e => some (.error e)
      | .ok (_timestamp, pos1) =>
        match readExact data pos1 4 with
        | .error e => some (.error e)
        | .ok (length, pos2) =>
          let st := { st with record_count := st.record_count + 1 }
          if tag = 0x01 then
            match readId idSize data pos2 with
            | .error e => some (.error e)
            | .ok (strId, pos3) =>
              let r := readBytes data pos3 ((length : Int) - (idSize : Int))
              topLoopF data idSize fuel r.2 { st with strings := (strId, r.1) :: st.strings }
          else if tag = 0x02 then
            match readExact data pos2 4 with
            | .error e => some (.error e)
            | .ok (serial, pos3) =>
              match readId idSize data pos3 with
              | .error e => some (.error e)
              | .ok (classObjId, pos4) =>
                match readExact data pos4 4 with
                | .error e => some (.error e)
                | .ok (_stackSerial, pos5) =>
                  match readId idSize data pos5 with
                  | .error e => some (.error e)
                  | .ok (nameId, pos6) =>
                    topLoopF data idSize fuel pos6 (processLoadClass serial classObjId nameId st)
          else if tag = 0x0C ∨ tag = 0x1C then
            let st := { st with heap_records := st.heap_records + 1 }
            match decodeSegmentF data idSize (pos2 + length) fuel pos2 st with
            | none => none
            | some (.error e) => some (.error e)
            | some (.ok (pos3, st3)) => topLoopF data idSize fuel pos3 st3
          else
            topLoopF data idSize fuel (readBytes data pos2 (length : Int)).2 st

theorem topLoopF_lift {data : List Nat} {idSize : Nat} :
    ∀ (fuel pos : Nat) (st : St) (r : Except Err St),
      topLoopF data idSize fuel pos st = some r →
      topLoop data idSize pos st = r := by
  intro fuel
  induction fuel with
  | zero =>
    intro pos st r h
    exact absurd h (by simp [topLoopF])
  | succ fuel ih =>
    intro pos st r h
    unfold topLoopF at h
    unfold topLoop
    by_cases hempty : (readBytes data pos 1).1 = []
    · rw [if_pos hempty] at h
      rw [dif_pos hempty]
      simp only [Option.some.injEq] at h
      exact h
    · rw [if_neg hempty] at h
      rw [dif_neg hempty]
      cases heq1 : readExact data (readBytes data pos 1).2 4 with
      | error e =>
        simp only [heq1, Option.some.injEq] at h
        simp only [heq1]
        exact h
      | ok v1 =>
        obtain ⟨ts1, pos1⟩ := v1
        simp only [heq1] at h
        simp only [heq1]
        cases heq2 : readExact data pos1 4 with
        | error e =>
          simp only [heq2, Option.some.injEq] at h
          simp only [heq2]
          exact h
        | ok v2 =>
          obtain ⟨length, pos2⟩ := v2
          simp only [heq2] at h
          simp only [heq2]
          by_cases ht1 : beVal (readBytes data pos 1).1 = 1
          · rw [if_pos ht1] at h ⊢
            cases heq3 : readId idSize data pos2 with
            | error e =>
              simp only [heq3, Option.some.injEq] at h
              simp only [heq3]
              exact h
            | ok v3 =>
              obtain ⟨strId, pos3⟩ := v3
              simp only [heq3] at h
              simp only [heq3]
              exact ih _ _ _ h
          · rw [if_neg ht1] at h ⊢
            by_cases ht2 : beVal (readBytes data pos 1).1 = 2
            · rw [if_pos ht2] at h ⊢
              cases heq3 : readExact data pos2 4 with
              | error e =>
                simp only [heq3, Option.some.injEq] at h
                simp only [heq3]
                exact h
              | ok v3 =>
                obtain ⟨serial, pos3⟩ := v3
                simp only [heq3] at h
                simp only [heq3]
                cases heq4 : readId idSize data pos3 with
                | error e =>
                  simp only [heq4, Option.some.injEq] at h
                  simp only [heq4]
                  exact h
                | ok v4 =>
                  obtain ⟨classObjId, pos4⟩ := v4
                  simp only [heq4] at h
                  simp only [heq4]
                  cases heq5 : readExact data pos4 4 with
                  | error e =>
                    simp only [heq5, Option.some.injEq] at h
                    simp only [heq5]
                    exact h
                  | ok v5 =>
                    obtain ⟨ss, pos5⟩ := v5
                    simp only [heq5] at h
                    simp only [heq5]
                    cases heq6 : readId idSize data pos5 with
                    | error e =>
                      simp only [heq6, Option.some.injEq] at h
                      simp only [heq6]
                      exact h
                    | ok v6 =>
                      obtain ⟨nameId, pos6⟩ := v6
                      simp only [heq6] at h
                      simp only [heq6]
                      exact ih _ _ _ h
            · rw [if_neg ht2] at h ⊢
              by_cases ht3 : beVal (readBytes data pos 1).1 = 12 ∨ beVal (readBytes data pos 1).1 = 28
              · rw [if_pos ht3] at h ⊢
                split at h
                · exact absurd h (by simp)
                · rename_i e heq3
                  have hseg := decodeSegmentF_lift fuel pos2 _ _ heq3
                  simp only [Option.some.injEq] at h
                  split
                  · rename_i e2 heq4
                    rw [hseg] at heq4
                    injection heq4 with heq5
                  · rename_i pos4 st4 heq4
                    rw [hseg] at heq4
                    exact absurd heq4 (by simp)
                · rename_i pos3 st3 heq3
                  have hseg := decodeSegmentF_lift fuel pos2 _ _ heq3
                  split
                  · rename_i e2 heq4
                    rw [hseg] at heq4
                    exact absurd heq4 (by simp)
                  · rename_i pos4 st4 heq4
                    rw [hseg] at heq4
                    injection heq4 with heq5
                    injection heq5 with heq6 heq7
                    subst heq6
                    subst heq7
                    exact ih _ _ _ h
              · rw [if_neg ht3] at h ⊢
                exact ih _ _ _ h

/-- Iteration-budgeted twin of `analyze`; `analyzeF_lift` transfers every
budgeted run. -/
def analyzeF (fuel : Nat) (data : List Nat) : Option (Except Err St) :=
  match scanHeader data (data.length + 1) 0 [] with
  | none => none
  | some (_header, pos) =>
    match readExact data pos 4 with
    | .error e => some (.error e)
    | .ok (idSize, pos) =>
      match readExact data pos 8 with
      | .error e => some (.error e)
      | .ok (_timestamp, pos) => topLoopF data idSize fuel pos {}

theorem analyzeF_lift {fuel : Nat} {data : List Nat} {r : Except Err St}
    (h : analyzeF fuel data = some r) : analyze data = some r := by
  unfold analyzeF at h
  unfold analyze
  cases hs : scanHeader data (data.length + 1) 0 [] with
  | none =>
    rw [hs] at h
    exact absurd h (by simp)
  | some v =>
    obtain ⟨hd, pos⟩ := v
    simp only [hs] at h ⊢
    cases h4 : readExact data pos 4 with
    | error e =>
      simp only [h4, Option.some.injEq] at h ⊢
      exact h
    | ok v2 =>
      obtain ⟨idSize, pos2⟩ := v2
      simp only [h4] at h ⊢
      cases h8 : readExact data pos2 8 with
      | error e =>
        simp only [h8, Option.some.injEq] at h ⊢
        exact h
      | ok v3 =>
        obtain ⟨ts, pos3⟩ := v3
        simp only [h8] at h ⊢
        exact congrArg some (topLoopF_lift fuel pos3 {} r h)

/-- Count of a class name inside one category bucket, as the report sections
Counter(name for _, name in bucket) computes it. -/
def countIn (name : List Nat) (l : List (Nat × List Nat)) : Nat :=
  (l.filter (fun p => p.2 == name)).length

/-- The suspect report pass (section 6 of the output) for one class name:
the name matches some configured suspect keyword, and the should-be-singleton
flag is shown iff moreover its global instance count exceeds 1 and the name
contains one of Manager/Service/Repository/Singleton/ViewModel. -/
def suspectFlagged (st : St) (name : List Nat) : Bool :=
  suspect_keywords.any (fun kw => containsSub kw name)
    && decide (1 < (st.instance_counts.lookup name).getD 0)
    && flag_substrings.any (fun s => containsSub s name)

/-- A class name is reported leak-suspect iff one of the three report sites
prints its leak marker: more than one entry in the Activity bucket, more
than one entry in the Service bucket, or the suspect-keyword pass flags it. -/
def isLeakSuspect (st : St) (name : List Nat) : Bool :=
  decide (1 < countIn name st.activity_instances)
    || decide (1 < countIn name st.service_instances)
    || suspectFlagged st name

/-- The GC-root histogram (section 7): occurrences of one root type in the
gc_roots ledger. -/
def rootHistogram (st : St) (rootType : List Nat) : Nat :=
  (st.gc_roots.filter (fun p => p.1 == rootType)).length

/-- The sub-tags the heap-dump segment loop recognizes; any other sub-tag
falls into the seek-to-segment-end branch. -/
def recognizedSub (b : Nat) : Bool :=
  b = 0x01 || b = 0x02 || b = 0x03 || b = 0x04 || b = 0x05 || b = 0x06
    || b = 0x07 || b = 0x08 || b = 0x20 || b = 0x21 || b = 0x22 || b = 0x23
    || b = 0xFF || b = 0x89 || b = 0x8B || b = 0x8D || b = 0xFE || b = 0xC3
    || b = 0x8A || b = 0x90

/-- The summary state of a completed run (none when the run diverges or
aborts with an error). -/
def finalState (data : List Nat) : Option St :=
  match analyze data with
  | some (.ok st) => some st
  | _ => none

/-- Budgeted twin of `finalState`. -/
def finalStateF (fuel : Nat) (data : List Nat) : Option St :=
  match analyzeF fuel data with
  | some (.ok st) => some st
  | _ => none

theorem finalStateF_lift {fuel : Nat} {data : List Nat} {st : St}
    (h : finalStateF fuel data = some st) : finalState data = some st := by
  unfold finalStateF at h
  unfold finalState
  cases ha : analyzeF fuel data with
  | none => rw [ha] at h; exact absurd h (by simp)
  | some r =>
    rw [ha] at h
    rw [analyzeF_lift ha]
    cases r with
    | error e => exact absurd h (by simp)
    | ok st2 => exact h

/-- Transfer of any observation of the final summary state from a budgeted
run to the real one. -/
theorem finalState_map_lift {α : Type} {fuel : Nat} {data : List Nat}
    {f : St → α} {a : α}
    (h : (finalStateF fuel data).map f = some a) : (finalState data).map f = some a := by
  cases hf : finalStateF fuel data with
  | none => rw [hf] at h; exact absurd h (by simp)
  | some st =>
    rw [hf] at h
    rw [finalStateF_lift hf]
    exact h

/-- Test stream: header "J", id width 4, zero timestamp.  One STRING record
(id 100, text "com/example/MainActivity"), one LOAD_CLASS (serial 1, class
object id 200, name id 100), one HEAP_DUMP whose 34-byte payload is two
INSTANCE_DUMP sub-records (object ids 50 and 51) of class id 200. -/
def streamComExample : List Nat :=
  [74, 0, 0, 0, 0, 4, 0, 0, 0, 0, 0, 0, 0, 0]
    ++ [1, 0, 0, 0, 0, 0, 0, 0, 28, 0, 0, 0, 100] ++ asc "com/example/MainActivity"
    ++ [2, 0, 0, 0, 0, 0, 0, 0, 16, 0, 0, 0, 1, 0, 0, 0, 200, 0, 0, 0, 0, 0, 0, 0, 100]
    ++ [12, 0, 0, 0, 0, 0, 0, 0, 34]
    ++ [0x21, 0, 0, 0, 50, 0, 0, 0, 0, 0, 0, 0, 200, 0, 0, 0, 0]
    ++ [0x21, 0, 0, 0, 51, 0, 0, 0, 0, 0, 0, 0, 200, 0, 0, 0, 0]

/-- Like `streamComExample` but the class name is
"me/ikate/findmy/MainActivity" (inside the analyzed app's package). -/
def streamFindmyActivity : List Nat :=
  [74, 0, 0, 0, 0, 4, 0, 0, 0, 0, 0, 0, 0, 0]
    ++ [1, 0, 0, 0, 0, 0, 0, 0, 32, 0, 0, 0, 100] ++ asc "me/ikate/findmy/MainActivity"
    ++ [2, 0, 0, 0, 0, 0, 0, 0, 16, 0, 0, 0, 1, 0, 0, 0, 200, 0, 0, 0, 0, 0, 0, 0, 100]
    ++ [12, 0, 0, 0, 0, 0, 0, 0, 34]
    ++ [0x21, 0, 0, 0, 50, 0, 0, 0, 0, 0, 0, 0, 200, 0, 0, 0, 0]
    ++ [0x21, 0, 0, 0, 51, 0, 0, 0, 0, 0, 0, 0, 200, 0, 0, 0, 0]

/-- Test stream whose header declares id width 2 (neither 4 nor 8), followed
by one record with the unrecognized tag 0x99 and length 0. -/
def streamWidth2 : List Nat :=
  [74, 0, 0, 0, 0, 2, 0, 0, 0, 0, 0, 0, 0, 0]
    ++ [0x99, 0, 0, 0, 0, 0, 0, 0, 0]

/-- Test stream where the LOAD_CLASS record (name id 100, class object id
200) precedes the STRING record defining id 100 as "A"; one INSTANCE_DUMP
of class id 200 follows. -/
def streamLoadClassFirst : List Nat :=
  [74, 0, 0, 0, 0, 4, 0, 0, 0, 0, 0, 0, 0, 0]
    ++ [2, 0, 0, 0, 0, 0, 0, 0, 16, 0, 0, 0, 1, 0, 0, 0, 200, 0, 0, 0, 0, 0, 0, 0, 100]
    ++ [1, 0, 0, 0, 0, 0, 0, 0, 5, 0, 0, 0, 100] ++ asc "A"
    ++ [12, 0, 0, 0, 0, 0, 0, 0, 17]
    ++ [0x21, 0, 0, 0, 50, 0, 0, 0, 0, 0, 0, 0, 200, 0, 0, 0, 0]

/-- Test stream with one heap-dump segment holding a single
ROOT_INTERNED_STRING (0x89) sub-record with object id 7. -/
def streamInternedRoot : List Nat :=
  [74, 0, 0, 0, 0, 4, 0, 0, 0, 0, 0, 0, 0, 0]
    ++ [12, 0, 0, 0, 0, 0, 0, 0, 5]
    ++ [0x89, 0, 0, 0, 7]

/-- Test stream with one heap-dump segment holding one ROOT_JNI_GLOBAL
(object id 7, ref id 8), one ROOT_INTERNED_STRING (object id 5), and one
ROOT_UNKNOWN 0xFF (object id 9). -/
def streamMixedRoots : List Nat :=
  [74, 0, 0, 0, 0, 4, 0, 0, 0, 0, 0, 0, 0, 0]
    ++ [12, 0, 0, 0, 0, 0, 0, 0, 19]
    ++ [1, 0, 0, 0, 7, 0, 0, 0, 8]
    ++ [0x89, 0, 0, 0, 5]
    ++ [0xFF, 0, 0, 0, 9]

/-- Like `streamComExample` but the class is
"me/ikate/findmy/SoundPlaybackService": Service-bucket material that also
matches the configured suspect keyword SoundPlaybackService. -/
def streamSoundPlayback : List Nat :=
  [74, 0, 0, 0, 0, 4, 0, 0, 0, 0, 0, 0, 0, 0]
    ++ [1, 0, 0, 0, 0, 0, 0, 0, 40, 0, 0, 0, 100] ++ asc "me/ikate/findmy/SoundPlaybackService"
    ++ [2, 0, 0, 0, 0, 0, 0, 0, 16, 0, 0, 0, 1, 0, 0, 0, 200, 0, 0, 0, 0, 0, 0, 0, 100]
    ++ [12, 0, 0, 0, 0, 0, 0, 0, 34]
    ++ [0x21, 0, 0, 0, 50, 0, 0, 0, 0, 0, 0, 0, 200, 0, 0, 0, 0]
    ++ [0x21, 0, 0, 0, 51, 0, 0, 0, 0, 0, 0, 0, 200, 0, 0, 0, 0]

/-- Like `streamComExample` but the class is
"me/ikate/findmy/MainViewModelActivityService", whose name matches the
Activity rule, the Service rule, the View rule and the suspect keyword
MainViewModel at once. -/
def streamMultiMatch : List Nat :=
  [74, 0, 0, 0, 0, 4, 0, 0, 0, 0, 0, 0, 0, 0]
    ++ [1, 0, 0, 0, 0, 0, 0, 0, 48, 0, 0, 0, 100]
    ++ asc "me/ikate/findmy/MainViewModelActivityService"
    ++ [2, 0, 0, 0, 0, 0, 0, 0, 16, 0, 0, 0, 1, 0, 0, 0, 200, 0, 0, 0, 0, 0, 0, 0, 100]
    ++ [12, 0, 0, 0, 0, 0, 0, 0, 34]
    ++ [0x21, 0, 0, 0, 50, 0, 0, 0, 0, 0, 0, 0, 200, 0, 0, 0, 0]
    ++ [0x21, 0, 0, 0, 51, 0, 0, 0, 0, 0, 0, 0, 200, 0, 0, 0, 0]

/-- 28 bytes whose heap-dump segment [23, 24) declares length 1 but starts a
STICKY_CLASS sub-record at its last byte: the 4-byte object id (value 42)
lies wholly beyond the declared segment end. -/
def overrunData : List Nat := List.replicate 23 0 ++ [5, 0, 0, 0, 42]

theorem beVal_one (b : Nat) : beVal [b] = b := by
  simp [beVal]

theorem readBytes_one_cons {data : List Nat} {pos b : Nat} {t : List Nat}
    (h : data.drop pos = b :: t) : readBytes data pos 1 = ([b], pos + 1) := by
  unfold readBytes
  rw [if_neg (by decide : ¬ ((1 : Int) < 0))]
  simp [h]

theorem drop_shift {data : List Nat} {pos : Nat} {xs rest : List Nat}
    (h : data.drop pos = xs ++ rest) : data.drop (pos + xs.length) = rest := by
  rw [← List.drop_drop, h, List.drop_left]

theorem readExact_of_drop {data : List Nat} {pos n : Nat} {bs rest : List Nat}
    (hdrop : data.drop pos = bs ++ rest) (hlen : bs.length = n) :
    readExact data pos n = .ok (beVal bs, pos + n) := by
  have h1 : (data.drop pos).take n = bs := by
    rw [hdrop, ← hlen, List.take_left]
  exact readExact_ok_iff.mpr ⟨by rw [h1, hlen], by rw [h1], rfl⟩

theorem readBytes_neg {data : List Nat} {pos : Nat} {n : Int} (h : n < 0) :
    readBytes data pos n = (data.drop pos, pos + (data.drop pos).length) := by
  unfold readBytes
  rw [if_pos h]

theorem readExact_one {data : List Nat} {pos b : Nat} (h : data[pos]? = some b) :
    readExact data pos 1 = .ok (b, pos + 1) := by
  have hlt : pos < data.length := by
    by_contra hc
    rw [List.getElem?_eq_none (by omega)] at h
    exact absurd h (by simp)
  have hd : data.drop pos = b :: data.drop (pos + 1) := by
    rw [List.drop_eq_getElem_cons hlt]
    have : data[pos] = b := by
      have := List.getElem?_eq_getElem hlt
      rw [this] at h
      injection h
    rw [this]
  rw [show (.ok (b, pos + 1) : Except Err (Nat × Nat)) = .ok (beVal [b], pos + 1) from by
    rw [beVal_one]]
  exact readExact_of_drop hd rfl

/-- An unrecognized sub-tag always dispatches to the seek-to-segment-end
stop, whatever the surrounding state. -/
theorem dispatchSub_unknown {data : List Nat} {idSize endPos subTag pos : Nat} {st : St}
    (h : recognizedSub subTag = false) :
    dispatchSub data idSize endPos subTag pos st = .ok (.stop endPos st) := by
  have hne : ∀ k : Nat, recognizedSub k = true → ¬ subTag = k := by
    intro k hk he
    rw [he, hk] at h
    simp at h
  unfold dispatchSub
  rw [if_neg (hne 1 (by decide)), if_neg (hne 2 (by decide)), if_neg (hne 3 (by decide)), if_neg (hne 4 (by decide)), if_neg (hne 5 (by decide)), if_neg (hne 6 (by decide)), if_neg (hne 7 (by decide)), if_neg (hne 8 (by decide)), if_neg (hne 32 (by decide)), if_neg (hne 33 (by decide)), if_neg (hne 34 (by decide)), if_neg (hne 35 (by decide)), if_neg (hne 255 (by decide)), if_neg (hne 137 (by decide)), if_neg (hne 139 (by decide)), if_neg (hne 141 (by decide)), if_neg (hne 254 (by decide)), if_neg (hne 195 (by decide)), if_neg (hne 138 (by decide)), if_neg (hne 144 (by decide))]

/-- Unknown sub-tag behaviour of the segment loop: when the byte before the
declared end is an unrecognized sub-tag, the loop stops without an error,
with the cursor placed exactly at the declared segment end and the state
untouched. -/
theorem decodeSegment_unknown {data : List Nat} {idSize endPos pos subTag : Nat} {st : St}
    (hlt : pos < endPos) (hget : data[pos]? = some subTag)
    (hb : recognizedSub subTag = false) :
    decodeSegment data idSize endPos pos st = .ok (endPos, st) := by
  unfold decodeSegment
  rw [dif_pos hlt]
  have h1 := readExact_one hget
  split
  · rename_i e heq
    rw [h1] at heq
    exact absurd heq (by simp)
  · rename_i subTag2 pos1 heq
    rw [h1] at heq
    injection heq with heq2
    injection heq2 with heq3 heq4
    subst heq3
    subst heq4
    split
    · rename_i e heq5
      rw [dispatchSub_unknown hb] at heq5
      exact absurd heq5 (by simp)
    · rename_i p2 st2 heq5
      rw [dispatchSub_unknown hb] at heq5
      injection heq5 with heq6
      injection heq6 with heq7 heq8
      rw [heq7, heq8]
    · rename_i p2 st2 heq5
      rw [dispatchSub_unknown hb] at heq5
      exact absurd heq5 (by simp)

/-- The header NUL-scan loop never terminates on a stream whose remaining
bytes hold no NUL: every iteration either re-reads an empty result at end of
stream or consumes one non-NUL byte, so no iteration budget ever suffices. -/
theorem scanHeader_none_of_no_nul {data : List Nat} :
    ∀ (fuel pos : Nat) (acc : List Nat), (∀ b ∈ data.drop pos, b ≠ 0) →
      scanHeader data fuel pos acc = none := by
  intro fuel
  induction fuel with
  | zero =>
    intro pos acc h
    rfl
  | succ fuel ih =>
    intro pos acc h
    unfold scanHeader
    cases hd : data.drop pos with
    | nil =>
      have h1 : readBytes data pos 1 = ([], pos) := by
        unfold readBytes
        rw [if_neg (by decide : ¬ ((1 : Int) < 0))]
        simp [hd]
      simp only [h1]
      rw [if_neg (by simp)]
      have h2 : data.drop (pos + 0) = [] := by simpa using hd
      exact ih pos (acc ++ []) (by rw [show pos + 0 = pos from rfl] at h2; rw [h2]; simp)
    | cons b t =>
      have hb : b ≠ 0 := h b (by rw [hd]; exact List.mem_cons_self b t)
      have h1 : readBytes data pos 1 = ([b], pos + 1) := readBytes_one_cons hd
      simp only [h1]
      rw [if_neg (by simpa using hb)]
      have hd1 : data.drop (pos + 1) = t := drop_shift (show data.drop pos = [b] ++ t from hd)
      refine ih (pos + 1) (acc ++ [b]) ?_
      intro c hc
      refine h c ?_
      rw [hd, hd1] at *
      exact List.mem_cons_of_mem b hc

/-- Processing one heap-dump record whose payload starts with an
unrecognized sub-tag: the record header is consumed, the record and
heap-segment counters are bumped, the remainder of the segment is abandoned
by seeking to its declared end, and the top-level loop carries on there —
no error is raised and the records after the segment are processed exactly
as they would otherwise be. -/
theorem topLoop_heap_unknown_subtag {data : List Nat} {idSize pos : Nat} {st : St}
    {tg t1 t2 t3 t4 l1 l2 l3 l4 b : Nat} {rest : List Nat}
    (hdrop : data.drop pos = tg :: t1 :: t2 :: t3 :: t4 :: l1 :: l2 :: l3 :: l4 :: b :: rest)
    (htag : tg = 12 ∨ tg = 28)
    (hb : recognizedSub b = false)
    (hlen : 1 ≤ beVal [l1, l2, l3, l4]) :
    topLoop data idSize pos st =
      topLoop data idSize (pos + 9 + beVal [l1, l2, l3, l4])
        { st with record_count := st.record_count + 1,
                  heap_records := st.heap_records + 1 } := by
  have hr0 : readBytes data pos 1 = ([tg], pos + 1) := readBytes_one_cons hdrop
  have hd1 : data.drop (pos + 1) =
      [t1, t2, t3, t4] ++ (l1 :: l2 :: l3 :: l4 :: b :: rest) :=
    drop_shift (show data.drop pos =
      [tg] ++ (t1 :: t2 :: t3 :: t4 :: l1 :: l2 :: l3 :: l4 :: b :: rest) from hdrop)
  have hr1 : readExact data (pos + 1) 4 = .ok (beVal [t1, t2, t3, t4], pos + 1 + 4) :=
    readExact_of_drop hd1 rfl
  have hd5 : data.drop (pos + 1 + 4) = [l1, l2, l3, l4] ++ (b :: rest) := by
    have := drop_shift hd1
    simpa using this
  have hr2 : readExact data (pos + 1 + 4) 4 = .ok (beVal [l1, l2, l3, l4], pos + 1 + 4 + 4) :=
    readExact_of_drop hd5 rfl
  have hd9 : data[pos + 1 + 4 + 4]? = some b := by
    have h9 : data.drop (pos + 1 + 4 + 4) = b :: rest := by
      have := drop_shift hd5
      simpa using this
    have hlt : pos + 1 + 4 + 4 < data.length := by
      by_contra hc
      rw [List.drop_eq_nil_of_le (by omega)] at h9
      exact absurd h9 (by simp)
    rw [List.getElem?_eq_getElem hlt]
    have := List.drop_eq_getElem_cons hlt
    rw [h9] at this
    injection this with h10
    rw [h10]
  have hne1 : ¬ beVal [tg] = 1 := by
    rcases htag with h | h <;> (subst h; rw [beVal_one]; omega)
  have hne2 : ¬ beVal [tg] = 2 := by
    rcases htag with h | h <;> (subst h; rw [beVal_one]; omega)
  have heq12 : beVal [tg] = 12 ∨ beVal [tg] = 28 := by
    rcases htag with h | h <;> (subst h; rw [beVal_one]; omega)
  have hseg : decodeSegment data idSize (pos + 1 + 4 + 4 + beVal [l1, l2, l3, l4])
      (pos + 1 + 4 + 4)
      { st with record_count := st.record_count + 1, heap_records := st.heap_records + 1 } =
      .ok (pos + 1 + 4 + 4 + beVal [l1, l2, l3, l4],
        { st with record_count := st.record_count + 1,
                  heap_records := st.heap_records + 1 }) :=
    decodeSegment_unknown (by omega) hd9 hb
  conv_lhs => rw [topLoop]
  rw [dif_neg (by rw [hr0]; simp)]
  simp only [hr0]
  split
  · rename_i e heq
    simp only [hr0] at heq
    rw [hr1] at heq
    exact absurd heq (by simp)
  · rename_i ts pos1 heq
    simp only [hr0] at heq
    rw [hr1] at heq
    injection heq with heq2
    injection heq2 with heq3 heq4
    subst heq4
    split
    · rename_i e heq
      rw [hr2] at heq
      exact absurd heq (by simp)
    · rename_i len pos2 heq
      rw [hr2] at heq
      injection heq with heq2
      injection heq2 with heq5 heq6
      subst heq5
      subst heq6
      rw [if_neg hne1, if_neg hne2, if_pos heq12]
      split
      · rename_i e heq
        rw [hseg] at heq
        exact absurd heq (by simp)
      · rename_i pos3 st3 heq
        rw [hseg] at heq
        injection heq with heq2
        injection heq2 with heq7 heq8
        subst heq7
        subst heq8
        rw [show pos + 1 + 4 + 4 + beVal [l1, l2, l3, l4] =
          pos + 9 + beVal [l1, l2, l3, l4] from by omega]

/-- A STRING record whose declared length is strictly below the id width:
the id is read, then f.read(length - id_size) is issued with a negative
count and so returns every remaining byte of the stream, which becomes the
string text; the next loop iteration reads an empty tag and stops cleanly,
producing a summary. -/
theorem topLoop_string_short_length {data : List Nat} {idSize pos : Nat} {st : St}
    {t1 t2 t3 t4 l1 l2 l3 l4 : Nat} {ids rest : List Nat}
    (hw : idSize = 4 ∨ idSize = 8)
    (hids : ids.length = idSize)
    (hdrop : data.drop pos =
      1 :: t1 :: t2 :: t3 :: t4 :: l1 :: l2 :: l3 :: l4 :: (ids ++ rest))
    (hlen : beVal [l1, l2, l3, l4] < idSize) :
    topLoop data idSize pos st =
      .ok { st with strings := (beVal ids, rest) :: st.strings,
                    record_count := st.record_count + 1 } := by
  have hr0 : readBytes data pos 1 = ([1], pos + 1) := readBytes_one_cons hdrop
  have hd1 : data.drop (pos + 1) =
      [t1, t2, t3, t4] ++ (l1 :: l2 :: l3 :: l4 :: (ids ++ rest)) :=
    drop_shift (show data.drop pos =
      [1] ++ (t1 :: t2 :: t3 :: t4 :: l1 :: l2 :: l3 :: l4 :: (ids ++ rest)) from hdrop)
  have hr1 : readExact data (pos + 1) 4 = .ok (beVal [t1, t2, t3, t4], pos + 1 + 4) :=
    readExact_of_drop hd1 rfl
  have hd5 : data.drop (pos + 1 + 4) = [l1, l2, l3, l4] ++ (ids ++ rest) := by
    have := drop_shift hd1
    simpa using this
  have hr2 : readExact data (pos + 1 + 4) 4 = .ok (beVal [l1, l2, l3, l4], pos + 1 + 4 + 4) :=
    readExact_of_drop hd5 rfl
  have hd9 : data.drop (pos + 1 + 4 + 4) = ids ++ rest := by
    have := drop_shift hd5
    simpa using this
  have hid : readId idSize data (pos + 1 + 4 + 4) =
      .ok (beVal ids, pos + 1 + 4 + 4 + idSize) := by
    rcases hw with h | h
    · subst h
      simp only [readId, if_pos rfl]
      exact readExact_of_drop hd9 hids
    · subst h
      simp only [readId]
      rw [if_neg (by omega)]
      exact readExact_of_drop hd9 hids
  have hdX : data.drop (pos + 1 + 4 + 4 + idSize) = rest := by
    have := drop_shift hd9
    rw [hids] at this
    exact this
  have hneg : ((beVal [l1, l2, l3, l4] : Int) - (idSize : Int)) < 0 := by omega
  have hrX : readBytes data (pos + 1 + 4 + 4 + idSize)
      ((beVal [l1, l2, l3, l4] : Int) - (idSize : Int)) =
      (rest, pos + 1 + 4 + 4 + idSize + rest.length) := by
    rw [readBytes_neg hneg, hdX]
  have hdEnd : data.drop (pos + 1 + 4 + 4 + idSize + rest.length) = [] := by
    have h0 : data.drop (pos + 1 + 4 + 4 + idSize) = rest ++ [] := by
      rw [hdX, List.append_nil]
    exact drop_shift h0
  have hrEnd : readBytes data (pos + 1 + 4 + 4 + idSize + rest.length) 1 =
      ([], pos + 1 + 4 + 4 + idSize + rest.length) := by
    unfold readBytes
    rw [if_neg (by decide : ¬ ((1 : Int) < 0))]
    simp [hdEnd]
  conv_lhs => rw [topLoop]
  rw [dif_neg (by rw [hr0]; simp)]
  simp only [hr0]
  split
  · rename_i e heq
    simp only [hr0] at heq
    rw [hr1] at heq
    exact absurd heq (by simp)
  · rename_i ts pos1 heq
    simp only [hr0] at heq
    rw [hr1] at heq
    injection heq with heq2
    injection heq2 with heq3 heq4
    subst heq4
    split
    · rename_i e heq
      rw [hr2] at heq
      exact absurd heq (by simp)
    · rename_i len pos2 heq
      rw [hr2] at heq
      injection heq with heq2
      injection heq2 with heq5 heq6
      subst heq5
      subst heq6
      rw [if_pos (beVal_one 1)]
      split
      · rename_i e heq
        rw [hid] at heq
        exact absurd heq (by simp)
      · rename_i strId pos3 heq
        rw [hid] at heq
        injection heq with heq2
        injection heq2 with heq7 heq8
        subst heq7
        subst heq8
        simp only [hrX]
        conv_lhs => rw [topLoop]
        rw [dif_pos (by rw [hrEnd])]

/-- C1 (counterexample): on the claim's stream — one STRING defining
"com/example/MainActivity", one LOAD_CLASS referencing it, two
INSTANCE_DUMPs of that class — the per-class count is 2 as claimed, but the
class is NOT reported leak-suspect: the Activity rule also requires the
package substring "me/ikate/findmy", no other leak-report site matches, so
the claimed conjunction fails. -/
theorem C1_cex :
    (finalState streamComExample).map (fun st =>
      ((st.instance_counts.lookup (asc "com/example/MainActivity")).getD 0,
        isLeakSuspect st (asc "com/example/MainActivity"))) = some (2, false) := by
  exact @finalState_map_lift _ 100 _ _ _ (by decide)

/-- C1 (amended): with the class name inside the analyzed package,
"me/ikate/findmy/MainActivity", the same stream shape yields a per-class
count of 2 and the class IS reported leak-suspect. -/
theorem C1_thm :
    (finalState streamFindmyActivity).map (fun st =>
      ((st.instance_counts.lookup (asc "me/ikate/findmy/MainActivity")).getD 0,
        isLeakSuspect st (asc "me/ikate/findmy/MainActivity"))) = some (2, true) := by
  exact @finalState_map_lift _ 100 _ _ _ (by decide)

/-- C2 (counterexample): a stream whose header declares id width 2 is not
rejected: no malformed-header error exists, the following record is decoded
and a summary with record count 1 is produced. -/
theorem C2_cex :
    (finalState streamWidth2).map (fun st => st.record_count) = some 1 := by
  exact @finalState_map_lift _ 100 _ _ _ (by decide)

/-- C2 (amended): the id width is never validated; any declared width other
than 4 simply makes every id read an 8-byte read, and decoding proceeds. -/
theorem C2_thm (w : Nat) (h : ¬ w = 4) (data : List Nat) (pos : Nat) :
    readId w data pos = readExact data pos 8 := by
  unfold readId
  rw [if_neg h]

/-- C2 (witness): width 2 falls into the 8-byte id branch. -/
theorem C2_thm_witness : readId 2 [] 0 = readExact [] 0 8 :=
  C2_thm 2 (by decide) [] 0

/-- C3 (counterexample): when the LOAD_CLASS record precedes the STRING
record for its name id, both records have been seen by the time the
INSTANCE_DUMP is decoded, yet the class id stays unresolved: the instance is
tallied under the placeholder "unknown_0xc8" and not under "A", refuting
order-independence. -/
theorem C3_cex :
    (finalState streamLoadClassFirst).map (fun st =>
      (st.class_id_to_name.lookup 200,
        (st.instance_counts.lookup (asc "unknown_0xc8")).getD 0,
        (st.instance_counts.lookup (asc "A")).getD 0)) = some (none, 1, 0) := by
  exact @finalState_map_lift _ 100 _ _ _ (by decide)

/-- C3 (amended): resolution is decided at LOAD_CLASS time only: processing
a LOAD_CLASS resolves the class id exactly when the STRING record of its
name id has already been seen, leaves the resolution map untouched
otherwise, and never unresolves an already-resolved class id. -/
theorem C3_thm (serial cid nid : Nat) (st : St) :
    (∀ s, st.strings.lookup nid = some s →
      (processLoadClass serial cid nid st).class_id_to_name.lookup cid = some s)
    ∧ (st.strings.lookup nid = none →
      (processLoadClass serial cid nid st).class_id_to_name = st.class_id_to_name)
    ∧ (∀ x, (st.class_id_to_name.lookup x).isSome = true →
      ((processLoadClass serial cid nid st).class_id_to_name.lookup x).isSome = true) := by
  refine ⟨?_, ?_, ?_⟩
  · intro s hs
    unfold processLoadClass
    simp only [hs, List.lookup]
    simp
  · intro hs
    unfold processLoadClass
    simp only [hs]
  · intro x hx
    unfold processLoadClass
    cases hs : st.strings.lookup nid with
    | none =>
      simp only [hs]
      exact hx
    | some s =>
      simp only [hs]
      simp only [List.lookup]
      by_cases hxc : x == cid
      · simp [hxc]
      · simp only [hxc]
        exact hx

/-- C3 (witness): with the STRING for name id 100 already present,
processing the LOAD_CLASS resolves class id 200 to that text. -/
theorem C3_thm_witness :
    (processLoadClass 1 200 100
      { strings := [(100, asc "A")] }).class_id_to_name.lookup 200 = some (asc "A") :=
  (C3_thm 1 200 100 { strings := [(100, asc "A")] }).1 (asc "A") (by decide)

/-- C4 (counterexample): a heap-dump segment holding exactly one
ROOT_INTERNED_STRING (0x89) sub-record is decoded (heap segment counted),
but no entry is appended to the GC-root ledger, so the vendor root
contributes neither to the root count nor to the histogram. -/
theorem C4_cex :
    (finalState streamInternedRoot).map (fun st =>
      (st.heap_records, st.gc_roots)) = some (1, []) := by
  exact @finalState_map_lift _ 100 _ _ _ (by decide)

/-- C4 (amended): the eight standard root kinds and ROOT_UNKNOWN (0xFF)
each append one ledger entry; the vendor kinds consume their object id but
append nothing: a segment with a JNI_GLOBAL root (id 7), an INTERNED_STRING
root (id 5) and an UNKNOWN root (id 9) ends with exactly the two entries
JNI_GLOBAL and UNKNOWN, and the INTERNED_STRING histogram bucket is 0. -/
theorem C4_thm :
    (finalState streamMixedRoots).map (fun st =>
      (st.gc_roots, rootHistogram st (asc "INTERNED_STRING"))) =
      some ([(asc "JNI_GLOBAL", 7), (asc "UNKNOWN", 9)], 0) := by
  exact @finalState_map_lift _ 100 _ _ _ (by decide)

/-- C5 (counterexample): the class "me/ikate/findmy/SoundPlaybackService"
is placed in the Service bucket by the elif chain (both instances), and the
separate suspect-keyword report pass ALSO flags it (keyword
SoundPlaybackService, count 2 > 1, name contains "Service"): an
earlier-rule match is also placed in the named-suspect-singleton list. -/
theorem C5_cex :
    (finalState streamSoundPlayback).map (fun st =>
      (countIn (asc "me/ikate/findmy/SoundPlaybackService") st.service_instances,
        suspectFlagged st (asc "me/ikate/findmy/SoundPlaybackService"))) =
      some (2, true) := by
  exact @finalState_map_lift _ 100 _ _ _ (by decide)

/-- C5 (amended): the four-way elif chain is first-match-wins — a name
matching the Activity, Service and View rules at once goes only to the
Activity bucket — while the named-suspect pass is an independent second
scan over all class names that can flag the same class again. -/
theorem C5_thm :
    (finalState streamMultiMatch).map (fun st =>
      (countIn (asc "me/ikate/findmy/MainViewModelActivityService") st.activity_instances,
        countIn (asc "me/ikate/findmy/MainViewModelActivityService") st.service_instances,
        countIn (asc "me/ikate/findmy/MainViewModelActivityService") st.scope_instances,
        countIn (asc "me/ikate/findmy/MainViewModelActivityService") st.view_instances,
        suspectFlagged st (asc "me/ikate/findmy/MainViewModelActivityService"))) =
      some (2, 0, 0, 0, true) := by
  exact @finalState_map_lift _ 100 _ _ _ (by decide)

/-- C6 (counterexample): a heap-dump segment of declared length 1 whose
single byte is the STICKY_CLASS sub-tag: the loop guard passes at the last
byte, the sub-record then reads its 4-byte object id entirely beyond the
declared end, and the segment loop finishes at position 28 > 24, so the
bytes consumed exceed the declared segment length. -/
theorem C6_cex :
    decodeSegment overrunData 4 24 23 {} =
      .ok (28, { gc_roots := [(asc "STICKY_CLASS", 42)] }) ∧ ¬ (28 ≤ 24) :=
  ⟨decodeSegmentF_lift 10 23 {} _ (by decide), by omega⟩

/-- C6 (amended): the segment bound is checked only before each sub-tag
read, so the final sub-record may consume bytes beyond the declared end;
when an unrecognized sub-tag is read inside the segment, the decoder seeks
so that the cursor lands exactly at the declared segment end, with no error
and the state untouched. -/
theorem C6_thm {data : List Nat} {idSize endPos pos subTag : Nat} {st : St}
    (hlt : pos < endPos) (hget : data[pos]? = some subTag)
    (hb : recognizedSub subTag = false) :
    decodeSegment data idSize endPos pos st = .ok (endPos, st) :=
  decodeSegment_unknown hlt hget hb

/-- C6 (witness): an unrecognized sub-tag 0x77 at the segment start lands
the cursor exactly at the declared end 5. -/
theorem C6_thm_witness : decodeSegment [119] 4 5 0 {} = .ok (5, {}) :=
  @C6_thm [119] 4 5 0 119 {} (by decide) (by decide) (by decide)

/-- C7: a heap-dump record (tag 0x0C or 0x1C) whose payload begins with an
unrecognized sub-tag raises no error: the record header is consumed, both
counters are bumped, the rest of the segment is abandoned by seeking to its
declared end pos + 9 + length, and the top-level loop continues there, so
every following record is processed exactly as it otherwise would be. -/
theorem C7_thm {data : List Nat} {idSize pos : Nat} {st : St}
    {tg t1 t2 t3 t4 l1 l2 l3 l4 b : Nat} {rest : List Nat}
    (hdrop : data.drop pos = tg :: t1 :: t2 :: t3 :: t4 :: l1 :: l2 :: l3 :: l4 :: b :: rest)
    (htag : tg = 12 ∨ tg = 28)
    (hb : recognizedSub b = false)
    (hlen : 1 ≤ beVal [l1, l2, l3, l4]) :
    topLoop data idSize pos st =
      topLoop data idSize (pos + 9 + beVal [l1, l2, l3, l4])
        { st with record_count := st.record_count + 1,
                  heap_records := st.heap_records + 1 } :=
  topLoop_heap_unknown_subtag hdrop htag hb hlen

/-- C7 (witness): a segment of length 1 whose payload byte 0x77 is
unrecognized; the loop resumes at position 10 with both counters bumped. -/
theorem C7_thm_witness :
    topLoop [28, 0, 0, 0, 0, 0, 0, 0, 1, 119] 4 0 {} =
      topLoop [28, 0, 0, 0, 0, 0, 0, 0, 1, 119] 4 10
        { record_count := 1, heap_records := 1 } :=
  @C7_thm [28, 0, 0, 0, 0, 0, 0, 0, 1, 119] 4 0 {} 28 0 0 0 0 0 0 0 1 119 []
    rfl (Or.inr rfl) (by decide) (by decide)

/-- C8: the analysis does NOT terminate on every finite stream: on the
NUL-free stream [74] the header NUL-scan loop re-reads the empty
end-of-stream result forever — no iteration budget whatever makes
scanHeader finish, and analyze reports the divergence marker none. -/
theorem C8_thm :
    (∀ fuel pos acc, scanHeader [74] fuel pos acc = none) ∧ analyze [74] = none := by
  have hall : ∀ pos : Nat, ∀ b ∈ ([74] : List Nat).drop pos, b ≠ 0 := by
    intro pos b hb
    have hmem : b ∈ ([74] : List Nat) := List.mem_of_mem_drop hb
    simp at hmem
    omega
  constructor
  · intro fuel pos acc
    exact scanHeader_none_of_no_nul fuel pos acc (hall pos)
  · unfold analyze
    rw [scanHeader_none_of_no_nul _ 0 [] (hall 0)]

/-- C9: decoding is deterministic — the analysis is a function of the byte
stream alone (all tables and counters are fresh per call), so two runs on
equal streams yield equal summaries. -/
theorem C9_thm (l1 l2 : List Nat) (h : l1 = l2) : analyze l1 = analyze l2 := by
  rw [h]

/-- C9 (witness): two runs on the same concrete stream agree. -/
theorem C9_thm_witness : analyze streamComExample = analyze streamComExample :=
  C9_thm streamComExample streamComExample rfl

/-- C10: a STRING record whose declared length is strictly smaller than the
id width does not fail: after the id is read, the text read is issued with
the negative count length - id_size and so returns every remaining byte of
the stream as the string text, and the next loop iteration stops cleanly at
end of stream with a summary. -/
theorem C10_thm {data : List Nat} {idSize pos : Nat} {st : St}
    {t1 t2 t3 t4 l1 l2 l3 l4 : Nat} {ids rest : List Nat}
    (hw : idSize = 4 ∨ idSize = 8)
    (hids : ids.length = idSize)
    (hdrop : data.drop pos =
      1 :: t1 :: t2 :: t3 :: t4 :: l1 :: l2 :: l3 :: l4 :: (ids ++ rest))
    (hlen : beVal [l1, l2, l3, l4] < idSize) :
    topLoop data idSize pos st =
      .ok { st with strings := (beVal ids, rest) :: st.strings,
                    record_count := st.record_count + 1 } :=
  topLoop_string_short_length hw hids hdrop hlen

/-- C10 (witness): declared length 2 with id width 4: the id bytes
[9, 9, 9, 9] are read, then the remaining [5, 6] become the text. -/
theorem C10_thm_witness :
    topLoop [1, 0, 0, 0, 0, 0, 0, 0, 2, 9, 9, 9, 9, 5, 6] 4 0 {} =
      .ok { strings := [(151587081, [5, 6])], record_count := 1 } :=
  @C10_thm [1, 0, 0, 0, 0, 0, 0, 0, 2, 9, 9, 9, 9, 5, 6] 4 0 {} 0 0 0 0 0 0 0 2
    [9, 9, 9, 9] [5, 6] (Or.inl rfl) rfl rfl (by decide)

end Hprof
